import Mathlib

/- Shallow embedding of the TAG front-end game engine:
   src/utils/game.ts, the round handlers of src/App.tsx, the GamePlay
   component (startRound and the winner display), the GameSetup start path
   and the RoundResults counters. JS numbers are modelled as Int (scores,
   timers) and Nat (indices, counters); the JS object holding team scores is
   modelled as its entry list in insertion order (keys unique). -/

/-- Theme as consumed by the engine: only its word list is read by the
game-round logic (the words array of the theme). -/
structure Theme where
  words : List String
  deriving DecidableEq

/-- Match settings (GameSettings in types.ts), fixed for the match lifetime. -/
structure GameSettings where
  theme : Theme
  selectedTeams : List String
  pointsRequired : Int
  roundTimer : Int
  skipPenalty : Bool
  deriving DecidableEq

/-- One guess/skip decision of a round's outcome log. -/
structure RoundResult where
  word : String
  guessed : Bool
  deriving DecidableEq

/-- The mutable match aggregate (GameState in types.ts). -/
structure GameState where
  settings : GameSettings
  currentTeamIndex : Nat
  currentRound : Nat
  teamScores : List (String × Int)
  wordsUsed : List String
  currentWordIndex : Nat
  roundStartTime : Option Int
  roundEndTime : Option Int
  isRoundActive : Bool
  roundResults : List RoundResult
  deriving DecidableEq

/-- The screens of App.tsx (AppScreen). -/
inductive AppScreen where
  | login
  | themeSelection
  | themeDetails
  | gameSetup
  | gamePlay
  | roundResults
  | gameHistory
  | createTheme
  deriving DecidableEq

/-- game.ts getAvailableWords: theme words not yet in the used list. -/
def getAvailableWords (theme : Theme) (wordsUsed : List String) : List String :=
  theme.words.filter (fun word => !(wordsUsed.contains word))

/-- JS object insertion `teamScores[team] = 0` folded over the team list:
an existing key is overwritten in place, a new key is appended. -/
def initTeamScores (teams : List String) : List (String × Int) :=
  teams.foldl
    (fun scores team =>
      if scores.any (fun p => p.1 == team) then
        scores.map (fun p => if p.1 == team then (p.1, 0) else p)
      else scores ++ [(team, 0)])
    []

/-- game.ts initializeGameState. -/
def initializeGameState (settings : GameSettings) : GameState :=
  { settings := settings
    currentTeamIndex := 0
    currentRound := 1
    teamScores := initTeamScores settings.selectedTeams
    wordsUsed := []
    currentWordIndex := 0
    roundStartTime := none
    roundEndTime := none
    isRoundActive := false
    roundResults := [] }

/-- Stands in for the undefined JS value of an out-of-range index read;
every theorem below that needs the current team assumes it is a key of the
score map, which the initialization path guarantees. -/
def defaultTeam : String := ""

/-- game.ts getCurrentTeam: selectedTeams[currentTeamIndex]. -/
def getCurrentTeam (state : GameState) : String :=
  state.settings.selectedTeams.getD state.currentTeamIndex defaultTeam

/-- game.ts checkWinCondition: the maximum of the team scores is computed
first (Math.max of no values is negative infinity, below any finite
threshold, so an empty score map yields the empty list); below the
points-required threshold the empty list is returned, otherwise every team
whose score equals the maximum. -/
def checkWinCondition (state : GameState) : List String :=
  match state.teamScores with
  | [] => []
  | e :: es =>
    let maxScore := (es.map (fun p => p.2)).foldl max e.2
    if maxScore < state.settings.pointsRequired then []
    else ((e :: es).filter (fun p => p.2 == maxScore)).map (fun p => p.1)

/-- GamePlay: the teams holding the maximum score (computed both in
startRound and in the game-over display when the pool is exhausted). -/
def maxScoreTeams (scores : List (String × Int)) : List String :=
  match scores with
  | [] => []
  | e :: es =>
    let maxScore := (es.map (fun p => p.2)).foldl max e.2
    ((e :: es).filter (fun p => p.2 == maxScore)).map (fun p => p.1)

/-- GamePlay render: threshold winners take precedence; otherwise, when the
available pool is empty, the teams tied at the maximum score win; otherwise
there is no winner yet. -/
def gamePlayWinners (state : GameState) : List String :=
  let targetWinners := checkWinCondition state
  if targetWinners.length > 0 then targetWinners
  else if (getAvailableWords state.settings.theme state.wordsUsed).length == 0 then
    maxScoreTeams state.teamScores
  else []

/-- GamePlay startRound: with an empty pool no round is started (none is
returned; the game-over display, gamePlayWinners, reports the winners).
Otherwise the round is activated: round-active flag set, start timestamp
recorded, word index reset (the shuffled order lives in component state,
outside the persisted GameState). -/
def startRound (state : GameState) (now : Int) : Option GameState :=
  if (getAvailableWords state.settings.theme state.wordsUsed).length == 0 then
    none
  else
    some { state with
      isRoundActive := true
      roundStartTime := some now
      currentWordIndex := 0 }

/-- The score accumulation loop of App.tsx handleRoundResultsConfirm:
plus one per guessed word, minus one per skipped word when the skip
penalty is enabled. -/
def scoreChange (finalResults : List RoundResult) (skipPenalty : Bool) : Int :=
  finalResults.foldl
    (fun acc r => if r.guessed then acc + 1 else if skipPenalty then acc - 1 else acc)
    0

/-- RoundResults: number of guessed words in the log. -/
def guessedCount (results : List RoundResult) : Nat :=
  (results.filter (fun r => r.guessed)).length

/-- RoundResults: skipped words are the rest of the log. -/
def skippedCount (results : List RoundResult) : Nat :=
  results.length - guessedCount results

/-- JS `scores[team] += delta` on an object whose keys are unique. -/
def addToTeam (scores : List (String × Int)) (team : String) (delta : Int) :
    List (String × Int) :=
  scores.map (fun p => if p.1 == team then (p.1, p.2 + delta) else p)

/-- Property read `scores[team]` of the score object. -/
def lookupScore (scores : List (String × Int)) (team : String) : Option Int :=
  (scores.find? (fun p => p.1 == team)).map (fun p => p.2)

/-- The turn-advance block of App.tsx, inlined identically in the empty-log
branch of handleRoundEnd and in the non-winner branch of
handleRoundResultsConfirm: cyclic team-index increment, round increment
exactly on wrap to 0, pending log and round flags cleared. -/
def advanceTurn (state : GameState) : GameState :=
  let newIndex := (state.currentTeamIndex + 1) % state.settings.selectedTeams.length
  { state with
    currentTeamIndex := newIndex
    currentRound := if newIndex = 0 then state.currentRound + 1 else state.currentRound
    roundResults := []
    isRoundActive := false
    roundStartTime := none
    currentWordIndex := 0 }

/-- handleRoundResultsConfirm before its win check: the score delta applied
to the current team, and every logged word appended to the used-words
ledger. -/
def confirmScored (state : GameState) (finalResults : List RoundResult) : GameState :=
  { state with
    teamScores := addToTeam state.teamScores (getCurrentTeam state)
      (scoreChange finalResults state.settings.skipPenalty)
    wordsUsed := state.wordsUsed ++ finalResults.map (fun r => r.word) }

/-- App.tsx handleRoundResultsConfirm: score and record the log, then check
the win condition; on a win return immediately (team pointer and round
number untouched), otherwise advance the turn. -/
def handleRoundResultsConfirm (state : GameState) (finalResults : List RoundResult) :
    GameState :=
  if (checkWinCondition (confirmScored state finalResults)).length > 0 then
    confirmScored state finalResults
  else advanceTurn (confirmScored state finalResults)

/-- App.tsx handleRoundEnd, with the screen transition made explicit: a
late signal after a winner exists is ignored (state and screen unchanged);
an empty log auto-advances the turn back on the game-play screen; otherwise
the log is stored pending and the confirmation screen is shown. -/
def handleRoundEnd (state : GameState) (screen : AppScreen)
    (results : List RoundResult) : GameState × AppScreen :=
  if (checkWinCondition state).length > 0 then (state, screen)
  else if results.length == 0 then (advanceTurn state, AppScreen.gamePlay)
  else ({ state with roundResults := results }, AppScreen.roundResults)

/-- GameSetup handleStart: fewer than two selected teams is rejected
(no settings emitted, no state created). -/
def handleStart (theme : Theme) (selectedTeams : List String)
    (pointsRequired roundTimer : Int) (skipPenalty : Bool) : Option GameSettings :=
  if selectedTeams.length < 2 then none
  else some { theme := theme
              selectedTeams := selectedTeams
              pointsRequired := pointsRequired
              roundTimer := roundTimer
              skipPenalty := skipPenalty }

/-- App.tsx handleGameStart: the round timer is clamped up to the 15-second
minimum (the skip-penalty double negation is the identity on Bool), then the
game state is initialized. -/
def handleGameStart (settings : GameSettings) : GameState :=
  initializeGameState { settings with roundTimer := max settings.roundTimer 15 }

/-- The whole initialization path: GameSetup.handleStart feeding
App.tsx handleGameStart. -/
def gameStartPath (theme : Theme) (selectedTeams : List String)
    (pointsRequired roundTimer : Int) (skipPenalty : Bool) : Option GameState :=
  (handleStart theme selectedTeams pointsRequired roundTimer skipPenalty).map
    handleGameStart

/-- A small concrete theme for the example states. -/
def exTheme : Theme := { words := ["w1", "w2", "w3"] }

/-- Concrete settings: two teams, threshold 50, timer 60, penalty on. -/
def exSettings : GameSettings :=
  { theme := exTheme
    selectedTeams := ["A", "B"]
    pointsRequired := 50
    roundTimer := 60
    skipPenalty := true }

/-- A freshly initialized match over exSettings. -/
def exState : GameState := initializeGameState exSettings

/-- The spec's example outcome log: guessed, skipped, guessed. -/
def exLog : List RoundResult :=
  [{ word := "w1", guessed := true },
   { word := "w2", guessed := false },
   { word := "w3", guessed := true }]

/-- A single-guess outcome log. -/
def exOneGuess : List RoundResult := [{ word := "w1", guessed := true }]

/-- A state in which team A has already reached the 50-point threshold. -/
def exStateWin : GameState :=
  { settings := exSettings
    currentTeamIndex := 0
    currentRound := 5
    teamScores := [("A", 50), ("B", 30)]
    wordsUsed := []
    currentWordIndex := 0
    roundStartTime := none
    roundEndTime := none
    isRoundActive := false
    roundResults := [] }

/-- The spec's threshold-precedence example: A at 49, B at 30, threshold 50. -/
def exState49 : GameState :=
  { settings := exSettings
    currentTeamIndex := 0
    currentRound := 3
    teamScores := [("A", 49), ("B", 30)]
    wordsUsed := []
    currentWordIndex := 0
    roundStartTime := none
    roundEndTime := none
    isRoundActive := false
    roundResults := [] }

/-- The spec's exhaustion-tiebreak example: all theme words used, scores
A 12, B 12, C 9, nobody at the 50-point threshold. -/
def exState5 : GameState :=
  { settings :=
      { theme := { words := ["w1", "w2"] }
        selectedTeams := ["A", "B", "C"]
        pointsRequired := 50
        roundTimer := 60
        skipPenalty := true }
    currentTeamIndex := 0
    currentRound := 4
    teamScores := [("A", 12), ("B", 12), ("C", 9)]
    wordsUsed := ["w1", "w2"]
    currentWordIndex := 0
    roundStartTime := none
    roundEndTime := none
    isRoundActive := false
    roundResults := [] }

/-- Settings carrying a 5-second round timer, below the 15-second minimum. -/
def exShortTimerSettings : GameSettings :=
  { theme := exTheme
    selectedTeams := ["A", "B"]
    pointsRequired := 50
    roundTimer := 5
    skipPenalty := true }

/- Helper lemmas, shared across the claim theorems. -/

theorem scoreChange_foldl_general (sp : Bool) (results : List RoundResult) :
    ∀ a : Int,
      results.foldl
        (fun acc r => if r.guessed then acc + 1 else if sp then acc - 1 else acc) a =
      a + (guessedCount results : Int) - (if sp then (skippedCount results : Int) else 0) := by
  induction results with
  | nil =>
    intro a
    cases sp <;> simp [guessedCount, skippedCount]
  | cons x xs ih =>
    intro a
    have hg : (xs.filter (fun r => r.guessed)).length ≤ xs.length :=
      List.length_filter_le _ _
    rw [List.foldl_cons, ih]
    cases hx : x.guessed <;> cases sp <;>
      simp [guessedCount, skippedCount, List.filter_cons, hx] <;>
      omega

theorem scoreChange_eq (results : List RoundResult) (sp : Bool) :
    scoreChange results sp =
      (guessedCount results : Int) - (if sp then (skippedCount results : Int) else 0) := by
  have h := scoreChange_foldl_general sp results 0
  simpa [scoreChange] using h

theorem lookupScore_cons (e : String × Int) (es : List (String × Int)) (team : String) :
    lookupScore (e :: es) team =
      if e.1 == team then some e.2 else lookupScore es team := by
  cases he : e.1 == team <;> simp [lookupScore, List.find?, he]

theorem addToTeam_cons (e : String × Int) (es : List (String × Int))
    (team : String) (d : Int) :
    addToTeam (e :: es) team d =
      (if e.1 == team then (e.1, e.2 + d) else e) :: addToTeam es team d := rfl

theorem lookupScore_addToTeam_self (scores : List (String × Int)) (team : String)
    (d v : Int) (hv : lookupScore scores team = some v) :
    lookupScore (addToTeam scores team d) team = some (v + d) := by
  induction scores with
  | nil => simp [lookupScore] at hv
  | cons e es ih =>
    rw [lookupScore_cons] at hv
    rw [addToTeam_cons, lookupScore_cons]
    cases he : e.1 == team
    · simp [he] at hv ⊢
      exact ih hv
    · simp [he] at hv ⊢
      omega

theorem lookupScore_addToTeam_other (scores : List (String × Int)) (team : String)
    (d : Int) (t : String) (ht : t ≠ team) :
    lookupScore (addToTeam scores team d) t = lookupScore scores t := by
  induction scores with
  | nil => rfl
  | cons e es ih =>
    rw [addToTeam_cons, lookupScore_cons, lookupScore_cons]
    cases he : e.1 == team
    · cases het : e.1 == t <;> simp [het, ih]
    · have he' : e.1 = team := by simpa using he
      have het : (e.1 == t) = false := by
        rw [he']
        exact beq_eq_false_iff_ne.mpr (Ne.symm ht)
      simp [he, het, ih]

theorem confirm_teamScores_eq (s : GameState) (r : List RoundResult) :
    (handleRoundResultsConfirm s r).teamScores =
      addToTeam s.teamScores (getCurrentTeam s) (scoreChange r s.settings.skipPenalty) := by
  unfold handleRoundResultsConfirm
  split <;> rfl

theorem confirm_wordsUsed_eq (s : GameState) (r : List RoundResult) :
    (handleRoundResultsConfirm s r).wordsUsed =
      s.wordsUsed ++ r.map (fun x => x.word) := by
  unfold handleRoundResultsConfirm
  split <;> rfl

theorem foldl_max_le_acc {α : Type} [LinearOrder α] (l : List α) (a : α) :
    a ≤ l.foldl max a := by
  induction l generalizing a with
  | nil => exact le_refl a
  | cons x xs ih => exact le_trans (le_max_left a x) (ih (max a x))

theorem le_foldl_max {α : Type} [LinearOrder α] (l : List α) :
    ∀ a x : α, x ∈ l → x ≤ l.foldl max a := by
  induction l with
  | nil =>
    intro a x hx
    cases hx
  | cons y ys ih =>
    intro a x hx
    rw [List.foldl_cons]
    rcases List.mem_cons.mp hx with h | h
    · subst h
      exact le_trans (le_max_right a x) (foldl_max_le_acc ys (max a x))
    · exact ih (max a y) x h

theorem foldl_max_mem {α : Type} [LinearOrder α] (l : List α) (a : α) :
    l.foldl max a = a ∨ l.foldl max a ∈ l := by
  induction l generalizing a with
  | nil => exact Or.inl rfl
  | cons x xs ih =>
    rw [List.foldl_cons]
    rcases ih (max a x) with h | h
    · rcases max_choice a x with hm | hm
      · exact Or.inl (by rw [h, hm])
      · exact Or.inr (by rw [h, hm]; exact List.mem_cons_self x xs)
    · exact Or.inr (List.mem_cons_of_mem x h)

theorem computed_max_eq (e : String × Int) (es : List (String × Int)) (M : Int)
    (hub : ∀ p ∈ e :: es, p.2 ≤ M) (hmem : ∃ p ∈ e :: es, p.2 = M) :
    (es.map (fun p => p.2)).foldl max e.2 = M := by
  apply le_antisymm
  · rcases foldl_max_mem (es.map (fun p => p.2)) e.2 with h | h
    · rw [h]
      exact hub e (List.mem_cons_self e es)
    · rcases List.mem_map.mp h with ⟨p, hp, hpv⟩
      rw [← hpv]
      exact hub p (List.mem_cons_of_mem e hp)
  · rcases hmem with ⟨p, hp, hpv⟩
    rcases List.mem_cons.mp hp with h | h
    · rw [← hpv, h]
      exact foldl_max_le_acc _ _
    · rw [← hpv]
      exact le_foldl_max _ _ _ (List.mem_map.mpr ⟨p, h, rfl⟩)

theorem mem_filterMapFst (l : List (String × Int)) (m : Int) (t : String) :
    t ∈ (l.filter (fun p => p.2 == m)).map (fun p => p.1) ↔
      ∃ p ∈ l, p.1 = t ∧ p.2 = m := by
  constructor
  · intro h
    rcases List.mem_map.mp h with ⟨p, hpf, hpt⟩
    rcases List.mem_filter.mp hpf with ⟨hpl, hpv⟩
    exact ⟨p, hpl, hpt, by simpa using hpv⟩
  · rintro ⟨p, hpl, hpt, hpv⟩
    exact List.mem_map.mpr ⟨p, List.mem_filter.mpr ⟨hpl, by simpa using hpv⟩, hpt⟩

theorem checkWinCondition_eq (s : GameState) (e : String × Int)
    (es : List (String × Int)) (hsc : s.teamScores = e :: es) :
    checkWinCondition s =
      if ((es.map (fun p => p.2)).foldl max e.2) < s.settings.pointsRequired then []
      else ((e :: es).filter
        (fun p => p.2 == (es.map (fun q => q.2)).foldl max e.2)).map (fun p => p.1) := by
  unfold checkWinCondition
  rw [hsc]

theorem maxScoreTeams_spec (scores : List (String × Int)) (M : Int)
    (hub : ∀ p ∈ scores, p.2 ≤ M) (hmem : ∃ p ∈ scores, p.2 = M) (t : String) :
    t ∈ maxScoreTeams scores ↔ ∃ p ∈ scores, p.1 = t ∧ p.2 = M := by
  cases scores with
  | nil =>
    rcases hmem with ⟨p, hp, -⟩
    cases hp
  | cons e es =>
    have hmax := computed_max_eq e es M hub hmem
    show t ∈ ((e :: es).filter
      (fun p => p.2 == (es.map (fun q => q.2)).foldl max e.2)).map (fun p => p.1) ↔ _
    rw [hmax]
    exact mem_filterMapFst (e :: es) M t

theorem advanceTurn_iter_no_wrap (k : Nat) :
    ∀ s : GameState, s.currentTeamIndex + k < s.settings.selectedTeams.length →
      (advanceTurn^[k] s).settings = s.settings ∧
      (advanceTurn^[k] s).currentTeamIndex = s.currentTeamIndex + k ∧
      (advanceTurn^[k] s).currentRound = s.currentRound := by
  induction k with
  | zero =>
    intro s h
    exact ⟨rfl, rfl, rfl⟩
  | succ k ih =>
    intro s h
    rw [Function.iterate_succ_apply]
    have hidx : (advanceTurn s).currentTeamIndex = s.currentTeamIndex + 1 := by
      simp only [advanceTurn]
      exact Nat.mod_eq_of_lt (by omega)
    have hset : (advanceTurn s).settings = s.settings := rfl
    have hrnd : (advanceTurn s).currentRound = s.currentRound := by
      simp only [advanceTurn]
      rw [Nat.mod_eq_of_lt (by omega)]
      rw [if_neg (by omega : ¬ s.currentTeamIndex + 1 = 0)]
    have h' : (advanceTurn s).currentTeamIndex + k <
        (advanceTurn s).settings.selectedTeams.length := by
      rw [hidx, hset]
      omega
    obtain ⟨ha, hb, hc⟩ := ih (advanceTurn s) h'
    refine ⟨by rw [ha, hset], by rw [hb, hidx]; omega, by rw [hc, hrnd]⟩

theorem advanceTurn_iter_wrap (s : GameState)
    (hidx : s.currentTeamIndex < s.settings.selectedTeams.length) :
    (advanceTurn^[s.settings.selectedTeams.length - s.currentTeamIndex] s).settings
        = s.settings ∧
    (advanceTurn^[s.settings.selectedTeams.length - s.currentTeamIndex] s).currentTeamIndex
        = 0 ∧
    (advanceTurn^[s.settings.selectedTeams.length - s.currentTeamIndex] s).currentRound
        = s.currentRound + 1 := by
  have hstep : s.settings.selectedTeams.length - s.currentTeamIndex =
      (s.settings.selectedTeams.length - s.currentTeamIndex - 1) + 1 := by omega
  rw [hstep, Function.iterate_succ_apply']
  obtain ⟨ha, hb, hc⟩ := advanceTurn_iter_no_wrap
    (s.settings.selectedTeams.length - s.currentTeamIndex - 1) s (by omega)
  have hlast : (advanceTurn^[s.settings.selectedTeams.length - s.currentTeamIndex - 1]
      s).currentTeamIndex + 1 = s.settings.selectedTeams.length := by
    rw [hb]
    omega
  refine ⟨?_, ?_, ?_⟩
  · show (advanceTurn _).settings = s.settings
    rw [show ∀ x : GameState, (advanceTurn x).settings = x.settings from fun x => rfl, ha]
  · show (advanceTurn _).currentTeamIndex = 0
    simp only [advanceTurn]
    rw [hlast, ha]
    exact Nat.mod_self _
  · show (advanceTurn _).currentRound = s.currentRound + 1
    simp only [advanceTurn]
    rw [hlast, ha, Nat.mod_self, if_pos rfl, hc]

/- Claim theorems, witnesses and counterexamples. -/

/-- Claim C1: confirming a round (handleRoundResultsConfirm) changes the
current team's score by guessedCount minus skippedCount when the skip
penalty is enabled, and by guessedCount when it is disabled; the score of
every other team is unchanged. -/
theorem confirm_score_delta (s : GameState) (finalResults : List RoundResult)
    (team : String) (v : Int)
    (hteam : getCurrentTeam s = team)
    (hv : lookupScore s.teamScores team = some v) :
    lookupScore (handleRoundResultsConfirm s finalResults).teamScores team =
      some (v + (if s.settings.skipPenalty
        then (guessedCount finalResults : Int) - (skippedCount finalResults : Int)
        else (guessedCount finalResults : Int))) ∧
    (∀ t : String, t ≠ team →
      lookupScore (handleRoundResultsConfirm s finalResults).teamScores t =
        lookupScore s.teamScores t) := by
  rw [confirm_teamScores_eq, hteam]
  constructor
  · rw [lookupScore_addToTeam_self s.teamScores team _ v hv, scoreChange_eq]
    cases s.settings.skipPenalty <;> simp
  · intro t ht
    exact lookupScore_addToTeam_other s.teamScores team _ t ht

/-- Claim C1 witness: in a fresh two-team match, confirming the log
[guessed, skipped, guessed] with the penalty enabled moves team A from 0 to
1 and leaves team B untouched. -/
theorem confirm_score_delta_witness :
    lookupScore (handleRoundResultsConfirm exState exLog).teamScores ("A") = some 1 ∧
    lookupScore (handleRoundResultsConfirm exState exLog).teamScores ("B") =
      lookupScore exState.teamScores ("B") := by
  have h := confirm_score_delta exState exLog ("A") 0 (by decide) (by decide)
  exact ⟨h.1.trans (by decide), h.2 ("B") (by decide)⟩

/-- Claim C2: for a confirmed log whose words are distinct and fresh, the
new used-words ledger is exactly the union of the old one and the words of
the log, its size is the old size plus the log length, it stays duplicate
free, and a used word is never returned by the available-words query. -/
theorem confirm_used_words_conservation (s : GameState) (results : List RoundResult)
    (hnodup : (results.map (fun r => r.word)).Nodup)
    (hfresh : ∀ w ∈ results.map (fun r => r.word), w ∉ s.wordsUsed)
    (hold : s.wordsUsed.Nodup) :
    (∀ w : String, w ∈ (handleRoundResultsConfirm s results).wordsUsed ↔
      w ∈ s.wordsUsed ∨ w ∈ results.map (fun r => r.word)) ∧
    (handleRoundResultsConfirm s results).wordsUsed.length
      = s.wordsUsed.length + results.length ∧
    (handleRoundResultsConfirm s results).wordsUsed.Nodup ∧
    (∀ (theme : Theme) (used : List String) (w : String),
      w ∈ used → w ∉ getAvailableWords theme used) := by
  refine ⟨?_, ?_, ?_, ?_⟩
  · intro w
    rw [confirm_wordsUsed_eq]
    exact List.mem_append
  · rw [confirm_wordsUsed_eq]
    simp
  · rw [confirm_wordsUsed_eq]
    exact hold.append hnodup (fun a ha hb => hfresh a hb ha)
  · intro theme used w hw hmemf
    have h2 := (List.mem_filter.mp hmemf).2
    simp only [Bool.not_eq_true'] at h2
    have h3 : used.elem w = true := List.elem_iff.mpr hw
    unfold List.contains at h2
    rw [h3] at h2
    cases h2

/-- Claim C2 witness: confirming three fresh distinct words in a fresh match
grows the empty ledger to size three with no duplicates, and a used word is
excluded from the pool. -/
theorem confirm_used_words_conservation_witness :
    (handleRoundResultsConfirm exState exLog).wordsUsed.length =
      exState.wordsUsed.length + exLog.length ∧
    (handleRoundResultsConfirm exState exLog).wordsUsed.Nodup ∧
    ("w1") ∉ getAvailableWords exTheme ["w1"] := by
  have h := confirm_used_words_conservation exState exLog
    (by decide) (by decide) (by decide)
  exact ⟨h.2.1, h.2.2.1, h.2.2.2 exTheme ["w1"] ("w1") (by decide)⟩

/-- Claim C3: with M the maximum team score of a non-empty score map,
checkWinCondition returns exactly the teams whose score equals M when M is
at least the points-required threshold, and the empty list when M is below
the threshold. -/
theorem checkWinCondition_threshold_spec (s : GameState) (M : Int)
    (hub : ∀ p ∈ s.teamScores, p.2 ≤ M)
    (hmem : ∃ p ∈ s.teamScores, p.2 = M) :
    (s.settings.pointsRequired ≤ M →
      ∀ t : String, t ∈ checkWinCondition s ↔
        ∃ p ∈ s.teamScores, p.1 = t ∧ p.2 = M) ∧
    (M < s.settings.pointsRequired → checkWinCondition s = []) := by
  cases hsc : s.teamScores with
  | nil =>
    rcases hmem with ⟨p, hp, -⟩
    rw [hsc] at hp
    cases hp
  | cons e es =>
    rw [hsc] at hub hmem
    have hmax := computed_max_eq e es M hub hmem
    rw [checkWinCondition_eq s e es hsc, hmax]
    constructor
    · intro hth t
      rw [if_neg (not_lt.mpr hth)]
      exact mem_filterMapFst (e :: es) M t
    · intro hlt
      rw [if_pos hlt]

/-- Claim C3 witness: with scores A 50, B 30 and threshold 50, team A is a
reported winner and the winner list is exactly [A]. -/
theorem checkWinCondition_threshold_spec_witness :
    ("A") ∈ checkWinCondition exStateWin ∧ checkWinCondition exStateWin = ["A"] := by
  have h := checkWinCondition_threshold_spec exStateWin 50 (by decide) (by decide)
  refine ⟨(h.1 (by decide) ("A")).mpr ⟨("A", 50), by decide, rfl, rfl⟩, by decide⟩

/-- Claim C4: when the win check on the scored state succeeds, the confirm
handler returns with the team pointer and the round number exactly as they
were before confirmation: the win is evaluated after the score delta and
before any turn advance. -/
theorem win_before_turn_advance (s : GameState) (finalResults : List RoundResult)
    (hwin : 0 < (checkWinCondition (confirmScored s finalResults)).length) :
    (handleRoundResultsConfirm s finalResults).currentTeamIndex = s.currentTeamIndex ∧
    (handleRoundResultsConfirm s finalResults).currentRound = s.currentRound := by
  unfold handleRoundResultsConfirm
  rw [if_pos hwin]
  exact ⟨rfl, rfl⟩

/-- Claim C4 witness: the spec's example, A at 49 with threshold 50,
confirming one guessed word: A crosses the threshold and the team pointer
and round number are unchanged. -/
theorem win_before_turn_advance_witness :
    (handleRoundResultsConfirm exState49 exOneGuess).currentTeamIndex =
      exState49.currentTeamIndex ∧
    (handleRoundResultsConfirm exState49 exOneGuess).currentRound =
      exState49.currentRound :=
  win_before_turn_advance exState49 exOneGuess (by decide)

/-- Claim C5: with the pool empty and no team at the threshold, attempting
to start a round does not start one (the match is over), and the reported
winners are exactly the teams holding the maximum score M. -/
theorem exhaustion_tiebreak (s : GameState) (now : Int) (M : Int)
    (hpool : getAvailableWords s.settings.theme s.wordsUsed = [])
    (hno : checkWinCondition s = [])
    (hub : ∀ p ∈ s.teamScores, p.2 ≤ M)
    (hmem : ∃ p ∈ s.teamScores, p.2 = M) :
    startRound s now = none ∧
    (∀ t : String, t ∈ gamePlayWinners s ↔ ∃ p ∈ s.teamScores, p.1 = t ∧ p.2 = M) := by
  constructor
  · unfold startRound
    rw [hpool]
    simp
  · intro t
    have hwinners : gamePlayWinners s = maxScoreTeams s.teamScores := by
      unfold gamePlayWinners
      rw [hno, hpool]
      simp
    rw [hwinners]
    exact maxScoreTeams_spec s.teamScores M hub hmem t

/-- Claim C5 witness: the spec's exhaustion example, scores A 12, B 12, C 9
with every theme word used: no round starts, A is a winner, and the winner
set is exactly [A, B]. -/
theorem exhaustion_tiebreak_witness :
    startRound exState5 0 = none ∧
    ("A") ∈ gamePlayWinners exState5 ∧
    gamePlayWinners exState5 = ["A", "B"] := by
  have h := exhaustion_tiebreak exState5 0 12 (by decide) (by decide)
    (by decide) (by decide)
  exact ⟨h.1, (h.2 ("A")).mpr ⟨("A", 12), by decide, rfl, rfl⟩, by decide⟩

/-- Claim C6: a round-end signal arriving when the match already has a
winner is ignored: the state and the screen are returned unchanged and
nothing is scored. -/
theorem stale_round_end_ignored (s : GameState) (scr : AppScreen)
    (results : List RoundResult) (h : checkWinCondition s ≠ []) :
    handleRoundEnd s scr results = (s, scr) := by
  unfold handleRoundEnd
  rw [if_pos (List.length_pos.mpr h)]

/-- Claim C6 witness: with team A already at the threshold, a late
round-end signal carrying a non-empty log leaves everything unchanged. -/
theorem stale_round_end_ignored_witness :
    handleRoundEnd exStateWin AppScreen.gamePlay exLog =
      (exStateWin, AppScreen.gamePlay) :=
  stale_round_end_ignored exStateWin AppScreen.gamePlay exLog (by decide)

/-- Claim C7 counterexample: a round-timer of 5 seconds is below the
15-second minimum, yet the initialization path does not reject it: a match
state is created (with the timer clamped up to 15), contradicting the claim
that invalid settings are rejected before any state is created. -/
theorem invalid_timer_not_rejected :
    (5 : Int) < 15 ∧
    gameStartPath exTheme ["A", "B"] 50 5 true =
      some (handleGameStart exShortTimerSettings) ∧
    (handleGameStart exShortTimerSettings).settings.roundTimer = 15 := by
  decide

/-- Claim C7 (amended): a selected-team count below 2 is rejected
synchronously (no state created); a round-timer below the 15-second minimum
is not rejected but clamped up to 15 at initialization, so no match state
violating either bound can be constructed through the initialization path. -/
theorem init_path_bounds (theme : Theme) (selectedTeams : List String)
    (pointsRequired roundTimer : Int) (skipPenalty : Bool) :
    (gameStartPath theme selectedTeams pointsRequired roundTimer skipPenalty = none ↔
      selectedTeams.length < 2) ∧
    (∀ gs : GameState,
      gameStartPath theme selectedTeams pointsRequired roundTimer skipPenalty = some gs →
        2 ≤ gs.settings.selectedTeams.length ∧ 15 ≤ gs.settings.roundTimer) := by
  unfold gameStartPath handleStart
  constructor
  · by_cases h : selectedTeams.length < 2
    · rw [if_pos h]
      simpa using h
    · rw [if_neg h]
      simpa using h
  · intro gs hgs
    by_cases h : selectedTeams.length < 2
    · rw [if_pos h] at hgs
      cases hgs
    · rw [if_neg h] at hgs
      simp only [Option.map_some'] at hgs
      injection hgs with hgs'
      subst hgs'
      exact ⟨not_lt.mp h, le_max_right _ _⟩

/-- Claim C7 witness: a single team is rejected (no state), and the clamped
5-second configuration yields a state with two teams and a 15-second timer. -/
theorem init_path_bounds_witness :
    (gameStartPath exTheme ["A"] 50 60 true = none ↔
      (["A"] : List String).length < 2) ∧
    (2 ≤ (handleGameStart exShortTimerSettings).settings.selectedTeams.length ∧
      15 ≤ (handleGameStart exShortTimerSettings).settings.roundTimer) :=
  ⟨(init_path_bounds exTheme ["A"] 50 60 true).1,
   (init_path_bounds exTheme ["A", "B"] 50 5 true).2
     (handleGameStart exShortTimerSettings) (by decide)⟩

/-- Claim C8 counterexample: in a state that already has a winner (team A at
the threshold, 2 teams, index 0), a round-end signal with an empty log does
NOT advance the turn: the index stays 0 although the cyclic increment would
move it to 1 — the stale-signal guard runs first, so the claim's universal
quantification over every match state fails. -/
theorem empty_round_not_advanced_after_win :
    checkWinCondition exStateWin ≠ [] ∧
    (handleRoundEnd exStateWin AppScreen.gamePlay []).1.currentTeamIndex =
      exStateWin.currentTeamIndex ∧
    (exStateWin.currentTeamIndex + 1) % exStateWin.settings.selectedTeams.length ≠
      exStateWin.currentTeamIndex := by
  decide

/-- Claim C8 (amended): in every match state with no established winner, a
round ending with an empty outcome log advances the turn exactly like a
confirmed round (cyclic index increment, round increment on wrap to 0),
changes no score and no used word, and does not enter the confirmation
screen. -/
theorem empty_round_auto_advance (s : GameState) (scr : AppScreen)
    (hno : checkWinCondition s = []) :
    handleRoundEnd s scr [] = (advanceTurn s, AppScreen.gamePlay) ∧
    (advanceTurn s).currentTeamIndex =
      (s.currentTeamIndex + 1) % s.settings.selectedTeams.length ∧
    (advanceTurn s).currentRound =
      (if (s.currentTeamIndex + 1) % s.settings.selectedTeams.length = 0
       then s.currentRound + 1 else s.currentRound) ∧
    (advanceTurn s).teamScores = s.teamScores ∧
    (advanceTurn s).wordsUsed = s.wordsUsed ∧
    (handleRoundEnd s scr []).2 ≠ AppScreen.roundResults := by
  have hlen : ¬ 0 < (checkWinCondition s).length := by simp [hno]
  unfold handleRoundEnd
  rw [if_neg hlen]
  refine ⟨by simp, rfl, rfl, rfl, rfl, by simp⟩

/-- Claim C8 witness: in a fresh two-team match (no winner yet), an empty
round-end advances from team 0 to team 1 without touching scores or ledger. -/
theorem empty_round_auto_advance_witness :
    handleRoundEnd exState AppScreen.gamePlay [] =
      (advanceTurn exState, AppScreen.gamePlay) ∧
    (advanceTurn exState).currentTeamIndex =
      (exState.currentTeamIndex + 1) % exState.settings.selectedTeams.length ∧
    (advanceTurn exState).currentRound =
      (if (exState.currentTeamIndex + 1) % exState.settings.selectedTeams.length = 0
       then exState.currentRound + 1 else exState.currentRound) ∧
    (advanceTurn exState).teamScores = exState.teamScores ∧
    (advanceTurn exState).wordsUsed = exState.wordsUsed ∧
    (handleRoundEnd exState AppScreen.gamePlay []).2 ≠ AppScreen.roundResults :=
  empty_round_auto_advance exState AppScreen.gamePlay (by decide)

/-- Claim C9: with N selected teams (N at least 2) and a valid team index,
N turn advances return the index to its original value and increment the
round number by exactly 1; a single advance increments the round exactly
when the index wraps to 0, and keeps the index a valid position. -/
theorem turn_rotation (s : GameState)
    (hN : 2 ≤ s.settings.selectedTeams.length)
    (hidx : s.currentTeamIndex < s.settings.selectedTeams.length) :
    (advanceTurn^[s.settings.selectedTeams.length] s).currentTeamIndex =
      s.currentTeamIndex ∧
    (advanceTurn^[s.settings.selectedTeams.length] s).currentRound =
      s.currentRound + 1 ∧
    ((advanceTurn s).currentRound = s.currentRound + 1 ↔
      (advanceTurn s).currentTeamIndex = 0) ∧
    (advanceTurn s).currentTeamIndex < s.settings.selectedTeams.length := by
  have hN0 : 0 < s.settings.selectedTeams.length := by omega
  obtain ⟨hs1, hi1, hr1⟩ := advanceTurn_iter_wrap s hidx
  have happ : advanceTurn^[s.settings.selectedTeams.length] s =
      advanceTurn^[s.currentTeamIndex]
        (advanceTurn^[s.settings.selectedTeams.length - s.currentTeamIndex] s) := by
    rw [← Function.iterate_add_apply]
    congr 1
    omega
  obtain ⟨ha, hb, hc⟩ := advanceTurn_iter_no_wrap s.currentTeamIndex
    (advanceTurn^[s.settings.selectedTeams.length - s.currentTeamIndex] s)
    (by rw [hi1, hs1]; omega)
  refine ⟨?_, ?_, ?_, ?_⟩
  · rw [happ, hb, hi1]
    omega
  · rw [happ, hc, hr1]
  · have hdef : (advanceTurn s).currentRound =
        if (advanceTurn s).currentTeamIndex = 0
        then s.currentRound + 1 else s.currentRound := rfl
    by_cases hz : (advanceTurn s).currentTeamIndex = 0
    · simp [hdef, hz]
    · simp only [hdef, if_neg hz]
      constructor
      · intro hcontra
        omega
      · intro hcontra
        exact absurd hcontra hz
  · show (s.currentTeamIndex + 1) % s.settings.selectedTeams.length <
      s.settings.selectedTeams.length
    exact Nat.mod_lt _ hN0

/-- Claim C9 witness: in the two-team example state, two advances restore
index 0 and add one round; one advance wraps to 0 (incrementing the round)
and stays in range. -/
theorem turn_rotation_witness :
    (advanceTurn^[exState.settings.selectedTeams.length] exState).currentTeamIndex =
      exState.currentTeamIndex ∧
    (advanceTurn^[exState.settings.selectedTeams.length] exState).currentRound =
      exState.currentRound + 1 ∧
    ((advanceTurn exState).currentRound = exState.currentRound + 1 ↔
      (advanceTurn exState).currentTeamIndex = 0) ∧
    (advanceTurn exState).currentTeamIndex < exState.settings.selectedTeams.length :=
  turn_rotation exState (by decide) (by decide)

/-- Claim C10: a round-end with a non-empty log changes at most the pending
roundResults field: scores, used words, team pointer and round number are
untouched, and the whole state equals the original with only roundResults
replaced. -/
theorem round_end_frame (s : GameState) (scr : AppScreen)
    (results : List RoundResult) (h : results ≠ []) :
    ((handleRoundEnd s scr results).1.teamScores = s.teamScores ∧
     (handleRoundEnd s scr results).1.wordsUsed = s.wordsUsed ∧
     (handleRoundEnd s scr results).1.currentTeamIndex = s.currentTeamIndex ∧
     (handleRoundEnd s scr results).1.currentRound = s.currentRound) ∧
    (handleRoundEnd s scr results).1 =
      { s with roundResults := (handleRoundEnd s scr results).1.roundResults } := by
  unfold handleRoundEnd
  split
  · exact ⟨⟨rfl, rfl, rfl, rfl⟩, rfl⟩
  · split
    · rename_i hc
      exact absurd (List.length_eq_zero.mp (by simpa using hc)) h
    · exact ⟨⟨rfl, rfl, rfl, rfl⟩, rfl⟩

/-- Claim C10 witness: an unconfirmed three-word round in the fresh
two-team match leaves scores, ledger, team pointer and round untouched. -/
theorem round_end_frame_witness :
    (((handleRoundEnd exState AppScreen.gamePlay exLog).1.teamScores =
        exState.teamScores ∧
      (handleRoundEnd exState AppScreen.gamePlay exLog).1.wordsUsed =
        exState.wordsUsed ∧
      (handleRoundEnd exState AppScreen.gamePlay exLog).1.currentTeamIndex =
        exState.currentTeamIndex ∧
      (handleRoundEnd exState AppScreen.gamePlay exLog).1.currentRound =
        exState.currentRound) ∧
     (handleRoundEnd exState AppScreen.gamePlay exLog).1 =
       { exState with
          roundResults :=
            (handleRoundEnd exState AppScreen.gamePlay exLog).1.roundResults }) :=
  round_end_frame exState AppScreen.gamePlay exLog (by decide)
